import Mathlib

/-
Verification of the asset resolution / load-cache subsystem of the
storyboarder XR scene manager (`SceneManagerXR`).

The embedded code:
  * `getFilepathForLoadable` — the resource identity resolver;
  * the `useReducer` body of `useAttachmentLoader` (`attachmentsReducer`);
  * the loadables filter (first `useMemo`, `loadables` + `requestAll`);
  * the begin-load effect (second `useMemo`, `notAskedKeys` + `sweepFS`).

Modelling conventions:
  * JS objects used as string-keyed maps become association lists
    (`State := List (String × Entry)`); `{...state, [id]: v}` replaces the
    value in place when the key exists and appends otherwise (`setKey`);
    property lookup is `getKey` (first match).
  * JS `null`/`undefined` become `Option`; a thrown `TypeError` becomes
    `Except.error JsError.typeError`.
  * Using a possibly-null value as a computed property key coerces it to
    the string "null" in JS; `jsKey` models this.
  * Decoded asset values and error objects are opaque; they are modelled
    as `String` tokens.
-/

inductive JsError
  | typeError
deriving DecidableEq

/-- Load status strings stored in `entry.status`:
'NotAsked' | 'Loading' | 'Success' | 'Error'. -/
inductive Status
  | NotAsked
  | Loading
  | Success
  | Error
deriving DecidableEq

/-- The `progress` object stored by the PROGRESS case:
`{ loaded, total, percent }`.  `percent` is `Option Nat`: `none` models
the non-finite JS value (NaN/Infinity) produced when `total = 0`; no
claim depends on that case. -/
structure ProgressInfo where
  loaded : Nat
  total : Nat
  percent : Option Nat
deriving DecidableEq

/-- A cache entry.  Each reducer case builds an object literal with a
subset of these properties; absent properties are `none`.
`loading` models the `loading` property tested by the LOAD case — no
reducer case ever writes it, so on every entry this module creates it
reads as JS `undefined` (`none`).
`arrayIdx0` models the index-0 property created by the PROGRESS case's
`...[action.payload.id]` spread (spreading the one-element *array*
`[action.payload.id]` into an object yields property "0"). -/
structure Entry where
  status : Option Status
  loading : Option Bool
  progress : Option ProgressInfo
  value : Option String
  error : Option String
  arrayIdx0 : Option (Option String)
deriving DecidableEq

/-- The attachments map: JS object keyed by resource-path strings,
in insertion order. -/
abbrev State := List (String × Entry)

/-- JS property read `state[k]`: first pair with the given key. -/
def getKey : State → String → Option Entry
  | [], _ => none
  | p :: rest, k => if p.1 = k then some p.2 else getKey rest k

/-- JS `{...state, [k]: v}`: if `k` is already a key its value is
replaced in place (key order preserved), otherwise the pair is appended. -/
def setKey (s : State) (k : String) (v : Entry) : State :=
  if (getKey s k).isSome then
    s.map (fun p => if p.1 = k then (k, v) else p)
  else
    s ++ [(k, v)]

/-- ToPropertyKey: a JS computed property key `[id]` coerces `null` to
the string "null". -/
def jsKey : Option String → String
  | none => "null"
  | some s => s

/-- `Math.floor(loaded/total) * 100` (line 89).  For natural numbers
with `total ≠ 0` this is exactly Nat floor division times 100; for
`total = 0` JS produces NaN/Infinity, modelled as `none`. -/
def progressPercent (loaded total : Nat) : Option Nat :=
  if total = 0 then none else some (loaded / total * 100)

/-- Entry written by the PENDING case: `{ status: 'NotAsked' }`. -/
def notAskedEntry : Entry :=
  ⟨some Status.NotAsked, none, none, none, none, none⟩

/-- Entry written by the LOAD case:
`{ status: 'Loading', progress: undefined }`. -/
def loadingEntry : Entry :=
  ⟨some Status.Loading, none, none, none, none, none⟩

/-- Entry written by the PROGRESS case:
`{ ...[action.payload.id], progress: { loaded, total, percent } }`.
The array spread contributes only the index-0 property; in particular
no `status` property is carried over from the previous entry. -/
def progressEntry (id : Option String) (loaded total : Nat) : Entry :=
  ⟨none, none, some ⟨loaded, total, progressPercent loaded total⟩, none, none, some id⟩

/-- Entry written by the SUCCESS case: `{ status: 'Success', value }`. -/
def successEntry (value : String) : Entry :=
  ⟨some Status.Success, none, none, some value, none, none⟩

/-- Entry written by the ERROR case: `{ status: 'Error', error }`. -/
def errorEntry (err : String) : Entry :=
  ⟨some Status.Error, none, none, none, some err, none⟩

/-- Dispatched actions.  `OTHER` stands for any action whose `type`
string matches none of the five recognised cases (the reducer's
`default`). -/
inductive ReducerAction
  | PENDING (id : Option String)
  | LOAD (id : Option String)
  | PROGRESS (id : Option String) (loaded total : Nat)
  | SUCCESS (id : Option String) (value : String)
  | ERROR (id : Option String) (err : String)
  | OTHER
deriving DecidableEq

/-- The key carried in an action's payload (`none` for unrecognised
actions, which carry no payload the reducer reads). -/
def actionId : ReducerAction → Option (Option String)
  | ReducerAction.PENDING id => some id
  | ReducerAction.LOAD id => some id
  | ReducerAction.PROGRESS id _ _ => some id
  | ReducerAction.SUCCESS id _ => some id
  | ReducerAction.ERROR id _ => some id
  | ReducerAction.OTHER => none

/-- The reducer passed to `useReducer` (lines 63-106).
PENDING: `state[id] ? state : {...state, [id]: {status:'NotAsked'}}`.
LOAD: reads `state[id].loading` — a TypeError when no entry exists;
when an entry exists the tested `loading` property is never written by
any case, so the guard is falsy and the entry is unconditionally reset
to `{status:'Loading', progress: undefined}`.
PROGRESS/SUCCESS/ERROR: overwrite the entry with the literals above.
default: return the state unchanged. -/
def attachmentsReducer (state : State) (action : ReducerAction) : Except JsError State :=
  match action with
  | ReducerAction.PENDING id =>
      Except.ok (if (getKey state (jsKey id)).isSome then state
                 else setKey state (jsKey id) notAskedEntry)
  | ReducerAction.LOAD id =>
      match getKey state (jsKey id) with
      | none => Except.error JsError.typeError
      | some e =>
          Except.ok (if e.loading.getD false then state
                     else setKey state (jsKey id) loadingEntry)
  | ReducerAction.PROGRESS id loaded total =>
      Except.ok (setKey state (jsKey id) (progressEntry id loaded total))
  | ReducerAction.SUCCESS id value =>
      Except.ok (setKey state (jsKey id) (successEntry value))
  | ReducerAction.ERROR id err =>
      Except.ok (setKey state (jsKey id) (errorEntry err))
  | ReducerAction.OTHER => Except.ok state

/-- Status of the entry at `k`: `some st` when an entry exists and its
`status` property is present. -/
def getStatus (s : State) (k : String) : Option Status :=
  (getKey s k).bind (fun e => e.status)

/-- JS `!!model.match(/\//)`: does the reference contain a slash? -/
def hasSlash (m : String) : Bool :=
  m.data.any (fun c => c = '/')

/-- `model.split(/\//)` on the character list: split at every slash,
keeping empty segments terms (JS semantics: "a/" gives ["a", ""],
"" gives [""]). -/
def splitSlash : List Char → List (List Char)
  | [] => [[]]
  | c :: cs =>
      let r := splitSlash cs
      if c = '/' then [] :: r
      else
        match r with
        | [] => [[c]]
        | seg :: segs => (c :: seg) :: segs

/-- `parts[parts.length - 1]`: the final path segment
(`splitSlash` never returns an empty list, so the default is never
used). -/
def lastSegment (m : String) : String :=
  ((splitSlash m.data).map (fun cs => String.mk cs)).getLastD ""

/-- Embedding of `getFilepathForLoadable` (lines 30-59).
The JS function destructures `{ type, model }`.  There is no null
check: when `model` is null, `model.match(/\//)` throws a TypeError.
Otherwise the `switch (type)` chains compare `type` against the
literal kind strings; a kind with no mapping returns null. -/
def getFilepathForLoadable (type : String) (model : Option String) : Except JsError (Option String) :=
  match model with
  | none => Except.error JsError.typeError
  | some m =>
    if hasSlash m then
      let filename := lastSegment m
      if type = "character" then Except.ok (some ("/data/user/characters/" ++ filename))
      else if type = "object" then Except.ok (some ("/data/user/objects/" ++ filename))
      else if type = "environment" then Except.ok (some ("/data/user/environments/" ++ filename))
      else Except.ok none
    else
      if type = "character" then Except.ok (some ("/data/system/dummies/gltf/" ++ m ++ ".glb"))
      else if type = "object" then Except.ok (some ("/data/system/objects/" ++ m ++ ".glb"))
      else Except.ok none

/-- A scene-object record as read by the loadables filter: its `type`
string, its `model` reference (`none` for null/undefined) and its
`loaded` flag (`none` when the property is absent). -/
structure Descriptor where
  type : String
  model : Option String
  loaded : Option Bool
deriving DecidableEq

/-- Truthiness of `world.environment.file` (a string or null):
null/undefined and the empty string are falsy. -/
def envTruthy : Option String → Bool
  | none => false
  | some s => s != ""

/-- The loadables list of the first `useMemo` (lines 108-119):
`Object.values(sceneObjects)` filtered by `o.model != null`, then
`o.loaded !== true`, then `!(o.type === 'object' && o.model === 'box')`;
when `world.environment.file` is truthy an environment descriptor
(whose object literal has no `loaded` property) is pushed at the end. -/
def loadables (sceneObjects : List Descriptor) (envFile : Option String) : List Descriptor :=
  let l := ((sceneObjects.filter (fun o => o.model.isSome)).filter
              (fun o => o.loaded != some true)).filter
              (fun o => !(o.type == "object" && o.model == some "box"))
  if envTruthy envFile then l ++ [Descriptor.mk "environment" envFile none] else l

/-- The `loadables.forEach` of lines 121-123: for each descriptor,
dispatch `PENDING` with `id := getFilepathForLoadable({type, model})`
(the resolved id may be null).  The queued dispatches are applied in
order by the reducer. -/
def requestAll : State → List Descriptor → Except JsError State
  | s, [] => Except.ok s
  | s, o :: os =>
      match getFilepathForLoadable o.type o.model with
      | Except.error e => Except.error e
      | Except.ok id =>
          match attachmentsReducer s (ReducerAction.PENDING id) with
          | Except.error e => Except.error e
          | Except.ok s' => requestAll s' os

/-- Keys of the entries selected by the second `useMemo`'s filter
(line 128): `v.status === 'NotAsked'`. -/
def notAskedKeys (s : State) : List String :=
  (s.filter (fun p => p.2.status == some Status.NotAsked)).map (fun p => p.1)

/-- Cache state plus the log of keys the external loader
(`gltfLoader.load`) has been invoked with. -/
structure FullState where
  attachments : State
  loads : List String
deriving DecidableEq

/-- The queued `LOAD` dispatches of one pass of the begin-load effect,
applied in order. -/
def applyLoads : State → List String → Except JsError State
  | s, [] => Except.ok s
  | s, k :: ks =>
      match attachmentsReducer s (ReducerAction.LOAD (some k)) with
      | Except.error e => Except.error e
      | Except.ok s' => applyLoads s' ks

/-- One pass of the begin-load effect (second `useMemo`, lines
126-138): for every entry whose status is `'NotAsked'` (computed on
the current snapshot), `gltfLoader.load(k, ...)` is invoked and a
`LOAD` action for `k` is dispatched. -/
def sweepFS (fs : FullState) : Except JsError FullState :=
  match applyLoads fs.attachments (notAskedKeys fs.attachments) with
  | Except.error e => Except.error e
  | Except.ok att => Except.ok ⟨att, fs.loads ++ notAskedKeys fs.attachments⟩

/-- Events of the cache's driving loop: a `REQUEST`/`PENDING` dispatch
for a resolved id, or one pass of the begin-load effect (which issues
the `BEGIN_LOAD`/`LOAD` events). -/
inductive Op
  | request (id : Option String)
  | sweep

def runOp (fs : FullState) : Op → Except JsError FullState
  | Op.request id =>
      match attachmentsReducer fs.attachments (ReducerAction.PENDING id) with
      | Except.error e => Except.error e
      | Except.ok att => Except.ok ⟨att, fs.loads⟩
  | Op.sweep => sweepFS fs

def runOps : FullState → List Op → Except JsError FullState
  | fs, [] => Except.ok fs
  | fs, op :: ops =>
      match runOp fs op with
      | Except.error e => Except.error e
      | Except.ok fs' => runOps fs' ops

/-- The cache before any event: `useReducer(..., {})` with no loader
invocation yet. -/
def initFS : FullState := ⟨[], []⟩

/-- Claim C8's wording of the requested set ("the scene objects with a
non-null model reference, whose loaded flag is not true, and which are
not the primitive-box sentinel, plus one environment descriptor when
the environment file is non-null"), stated from the spec's words for
comparison with `loadables`. -/
def claimedLoadRequest (sceneObjects : List Descriptor) (envFile : Option String) (d : Descriptor) : Prop :=
  (d ∈ sceneObjects ∧ d.model ≠ none ∧ d.loaded ≠ some true ∧
     ¬(d.type = "object" ∧ d.model = some "box")) ∨
  (envFile ≠ none ∧ d = Descriptor.mk "environment" envFile none)

def keys (s : State) : List String := s.map (fun p => p.1)

lemma getKey_eq_none_iff (s : State) (k : String) :
    getKey s k = none ↔ k ∉ keys s := by
  induction s with
  | nil => simp [getKey, keys]
  | cons p t ih =>
      by_cases h : p.1 = k
      · simp [getKey, keys, h]
      · simp [getKey, keys, h, ih, Ne.symm h]

lemma getKey_map_replace (s : State) (k : String) (v : Entry)
    (h : (getKey s k).isSome = true) :
    getKey (s.map (fun p => if p.1 = k then (k, v) else p)) k = some v := by
  induction s with
  | nil => simp [getKey] at h
  | cons p t ih =>
      by_cases hp : p.1 = k
      · simp [getKey, hp]
      · simp [getKey, hp] at h ⊢
        exact ih h

lemma getKey_append_single (s : State) (k : String) (v : Entry)
    (h : getKey s k = none) :
    getKey (s ++ [(k, v)]) k = some v := by
  induction s with
  | nil => simp [getKey]
  | cons p t ih =>
      by_cases hp : p.1 = k
      · simp [getKey, hp] at h
      · simp [getKey, hp] at h ⊢
        exact ih h

lemma getKey_setKey_self (s : State) (k : String) (v : Entry) :
    getKey (setKey s k v) k = some v := by
  unfold setKey
  by_cases h : (getKey s k).isSome
  · simp [h, getKey_map_replace s k v h]
  · have hn : getKey s k = none := by
      cases hg : getKey s k
      · rfl
      · simp [hg] at h
    simp [h, getKey_append_single s k v hn]

lemma getKey_map_replace_ne (s : State) (k k' : String) (v : Entry)
    (h : k' ≠ k) :
    getKey (s.map (fun p => if p.1 = k then (k, v) else p)) k' = getKey s k' := by
  induction s with
  | nil => simp [getKey]
  | cons p t ih =>
      by_cases hh : p.1 = k
      · have hne : p.1 ≠ k' := by
          rw [hh]
          exact fun he => h he.symm
        simp [getKey, hh, hne, Ne.symm h, ih]
      · by_cases hk' : p.1 = k'
        · simp [getKey, hh, hk', h]
        · simp [getKey, hh, hk', ih]

lemma getKey_append_single_ne (s : State) (k k' : String) (v : Entry)
    (h : k' ≠ k) :
    getKey (s ++ [(k, v)]) k' = getKey s k' := by
  induction s with
  | nil => simp [getKey, Ne.symm h]
  | cons p t ih =>
      by_cases hk' : p.1 = k'
      · simp [getKey, hk']
      · simp [getKey, hk', ih]

lemma getKey_setKey_ne (s : State) (k k' : String) (v : Entry)
    (h : k' ≠ k) :
    getKey (setKey s k v) k' = getKey s k' := by
  unfold setKey
  by_cases hp : (getKey s k).isSome
  · simp [hp, getKey_map_replace_ne s k k' v h]
  · simp [hp, getKey_append_single_ne s k k' v h]

lemma getKey_some_mem (s : State) (k : String) (e : Entry)
    (h : getKey s k = some e) : (k, e) ∈ s := by
  induction s with
  | nil => simp [getKey] at h
  | cons p t ih =>
      by_cases hp : p.1 = k
      · simp [getKey, hp] at h
        exact List.mem_cons.mpr (Or.inl (Prod.ext_iff.mpr ⟨hp, h⟩).symm)
      · simp [getKey, hp] at h
        exact List.mem_cons_of_mem _ (ih h)

lemma getKey_of_mem_nodup (s : State) (k : String) (e : Entry)
    (hnd : (keys s).Nodup) (hm : (k, e) ∈ s) : getKey s k = some e := by
  induction s with
  | nil => simp at hm
  | cons p t ih =>
      have hnd' : p.1 ∉ keys t ∧ (keys t).Nodup :=
        List.nodup_cons.mp hnd
      rcases List.mem_cons.mp hm with h | h
      · simp [getKey, ← h]
      · have hk : k ∈ keys t := List.mem_map.mpr ⟨(k, e), h, rfl⟩
        have hp : p.1 ≠ k := fun he => hnd'.1 (he ▸ hk)
        simp [getKey, hp]
        exact ih hnd'.2 h

lemma keys_setKey_present (s : State) (k : String) (v : Entry)
    (h : (getKey s k).isSome = true) :
    keys (setKey s k v) = keys s := by
  unfold setKey
  simp only [h, if_true, keys, List.map_map]
  apply List.map_congr_left
  intro p _
  by_cases hp : p.1 = k
  · simp [hp]
  · simp [hp]

lemma keys_setKey_absent (s : State) (k : String) (v : Entry)
    (h : getKey s k = none) :
    keys (setKey s k v) = keys s ++ [k] := by
  unfold setKey
  simp [h, keys]

lemma getKey_setKey_isSome (s : State) (k k' : String) (v : Entry)
    (h : (getKey s k').isSome = true) :
    (getKey (setKey s k v) k').isSome = true := by
  by_cases he : k' = k
  · rw [he, getKey_setKey_self]
    rfl
  · rw [getKey_setKey_ne s k k' v he]
    exact h

/-- Net effect on the attachments map of the LOAD dispatches queued by
one pass of the begin-load effect. -/
def loadFold (ns : List String) (s : State) : State :=
  ns.foldl (fun st k => setKey st k loadingEntry) s

lemma loadFold_getKey_not_mem (ns : List String) (s : State) (k : String)
    (h : k ∉ ns) : getKey (loadFold ns s) k = getKey s k := by
  induction ns generalizing s with
  | nil => rfl
  | cons a t ih =>
      have hka : k ≠ a := fun he => h (he ▸ List.mem_cons_self a t)
      have hkt : k ∉ t := fun hm => h (List.mem_cons_of_mem a hm)
      calc getKey (loadFold (a :: t) s) k
          = getKey (loadFold t (setKey s a loadingEntry)) k := rfl
        _ = getKey (setKey s a loadingEntry) k := ih _ hkt
        _ = getKey s k := getKey_setKey_ne s a k loadingEntry hka

lemma loadFold_getKey_mem (ns : List String) (s : State) (k : String)
    (h : k ∈ ns) : getKey (loadFold ns s) k = some loadingEntry := by
  induction ns generalizing s with
  | nil => simp at h
  | cons a t ih =>
      by_cases hkt : k ∈ t
      · exact ih _ hkt
      · have hka : k = a := by
          rcases List.mem_cons.mp h with h' | h'
          · exact h'
          · exact absurd h' hkt
        calc getKey (loadFold (a :: t) s) k
            = getKey (loadFold t (setKey s a loadingEntry)) k := rfl
          _ = getKey (setKey s a loadingEntry) k := loadFold_getKey_not_mem t _ k hkt
          _ = some loadingEntry := by rw [hka]; exact getKey_setKey_self s a loadingEntry

lemma loadFold_keys (ns : List String) (s : State)
    (h : ∀ k ∈ ns, (getKey s k).isSome = true) :
    keys (loadFold ns s) = keys s := by
  induction ns generalizing s with
  | nil => rfl
  | cons a t ih =>
      have ha : (getKey s a).isSome = true := h a (List.mem_cons_self a t)
      calc keys (loadFold (a :: t) s)
          = keys (loadFold t (setKey s a loadingEntry)) := rfl
        _ = keys (setKey s a loadingEntry) := by
            apply ih
            intro k hk
            exact getKey_setKey_isSome s a k loadingEntry (h k (List.mem_cons_of_mem a hk))
        _ = keys s := keys_setKey_present s a loadingEntry ha

lemma loadFold_loading_none (ns : List String) (s : State)
    (h : ∀ k e, getKey s k = some e → e.loading = none) :
    ∀ k e, getKey (loadFold ns s) k = some e → e.loading = none := by
  intro k e he
  by_cases hm : k ∈ ns
  · rw [loadFold_getKey_mem ns s k hm] at he
    cases he
    rfl
  · rw [loadFold_getKey_not_mem ns s k hm] at he
    exact h k e he

lemma applyLoads_ok (ns : List String) (s : State)
    (hpres : ∀ k ∈ ns, (getKey s k).isSome = true)
    (hload : ∀ k e, getKey s k = some e → e.loading = none) :
    applyLoads s ns = Except.ok (loadFold ns s) := by
  induction ns generalizing s with
  | nil => rfl
  | cons a t ih =>
      have ha : (getKey s a).isSome = true := hpres a (List.mem_cons_self a t)
      obtain ⟨e, he⟩ := Option.isSome_iff_exists.mp ha
      have hl : e.loading = none := hload a e he
      have hred : attachmentsReducer s (ReducerAction.LOAD (some a)) =
          Except.ok (setKey s a loadingEntry) := by
        simp [attachmentsReducer, jsKey, he, hl]
      rw [show applyLoads s (a :: t) =
            (match attachmentsReducer s (ReducerAction.LOAD (some a)) with
             | Except.error e => Except.error e
             | Except.ok s' => applyLoads s' t) from rfl,
          hred]
      exact ih (setKey s a loadingEntry)
        (fun k hk => getKey_setKey_isSome s a k loadingEntry (hpres k (List.mem_cons_of_mem a hk)))
        (fun k e' he' => by
          by_cases hka : k = a
          · rw [hka, getKey_setKey_self] at he'
            cases he'
            rfl
          · rw [getKey_setKey_ne s a k loadingEntry hka] at he'
            exact hload k e' he')

lemma notAskedKeys_sublist (s : State) :
    (notAskedKeys s).Sublist (keys s) := by
  unfold notAskedKeys keys
  exact (List.filter_sublist s).map (fun p => p.1)

lemma notAskedKeys_mem_iff (s : State) (k : String)
    (hnd : (keys s).Nodup) :
    k ∈ notAskedKeys s ↔ getStatus s k = some Status.NotAsked := by
  constructor
  · intro h
    obtain ⟨p, hp, hk⟩ := List.mem_map.mp h
    obtain ⟨hmem, hst⟩ := List.mem_filter.mp hp
    have hst' : p.2.status = some Status.NotAsked := by
      simpa using hst
    have := getKey_of_mem_nodup s p.1 p.2 hnd hmem
    rw [← hk]
    simp [getStatus, this, hst']
  · intro h
    unfold getStatus at h
    cases hg : getKey s k with
    | none => rw [hg] at h; simp at h
    | some e =>
        rw [hg] at h
        simp at h
        have hm := getKey_some_mem s k e hg
        apply List.mem_map.mpr
        refine ⟨(k, e), List.mem_filter.mpr ⟨hm, ?_⟩, rfl⟩
        simp [h]

/-- Reachability invariant of the driving loop: keys are unique, no
entry carries a `loading` property, each key has been handed to the
loader at most once, and a key already handed to the loader is
`Loading` (so the begin-load filter can never select it again). -/
def invC1 (fs : FullState) : Prop :=
  (keys fs.attachments).Nodup ∧
  (∀ k e, getKey fs.attachments k = some e → e.loading = none) ∧
  (∀ k : String, fs.loads.count k ≤ 1) ∧
  (∀ k : String, 1 ≤ fs.loads.count k → getStatus fs.attachments k = some Status.Loading)

lemma invC1_init : invC1 initFS := by
  refine ⟨List.nodup_nil, ?_, ?_, ?_⟩
  · intro k e h
    simp [initFS, getKey] at h
  · intro k
    simp [initFS]
  · intro k h
    simp [initFS] at h

lemma invC1_request (fs fs' : FullState) (id : Option String)
    (hinv : invC1 fs) (h : runOp fs (Op.request id) = Except.ok fs') :
    invC1 fs' := by
  obtain ⟨hnd, hld, hc, hs⟩ := hinv
  have hred : attachmentsReducer fs.attachments (ReducerAction.PENDING id) =
      Except.ok (if (getKey fs.attachments (jsKey id)).isSome then fs.attachments
                 else setKey fs.attachments (jsKey id) notAskedEntry) := rfl
  rw [show runOp fs (Op.request id) =
        (match attachmentsReducer fs.attachments (ReducerAction.PENDING id) with
         | Except.error e => Except.error e
         | Except.ok att => Except.ok ⟨att, fs.loads⟩) from rfl, hred] at h
  by_cases hp : (getKey fs.attachments (jsKey id)).isSome
  · rw [if_pos hp] at h
    cases h
    exact ⟨hnd, hld, hc, hs⟩
  · rw [if_neg hp] at h
    cases h
    have hn : getKey fs.attachments (jsKey id) = none := by
      cases hg : getKey fs.attachments (jsKey id)
      · rfl
      · simp [hg] at hp
    refine ⟨?_, ?_, hc, ?_⟩
    · rw [keys_setKey_absent _ _ _ hn]
      simp [List.nodup_append]
      exact ⟨hnd, (getKey_eq_none_iff _ _).mp hn⟩
    · intro k e he
      by_cases hk : k = jsKey id
      · rw [hk, getKey_setKey_self] at he
        cases he
        rfl
      · rw [getKey_setKey_ne _ _ _ _ hk] at he
        exact hld k e he
    · intro k hk
      have hst := hs k hk
      by_cases hke : k = jsKey id
      · rw [hke] at hst
        simp [getStatus, hn] at hst
      · rw [show getStatus (setKey fs.attachments (jsKey id) notAskedEntry) k =
              getStatus fs.attachments k from by
            unfold getStatus
            rw [getKey_setKey_ne _ _ _ _ hke]]
        exact hst

lemma invC1_sweep (fs fs' : FullState)
    (hinv : invC1 fs) (h : runOp fs Op.sweep = Except.ok fs') :
    invC1 fs' := by
  obtain ⟨hnd, hld, hc, hs⟩ := hinv
  have hpres : ∀ k ∈ notAskedKeys fs.attachments, (getKey fs.attachments k).isSome = true := by
    intro k hk
    have := (notAskedKeys_mem_iff fs.attachments k hnd).mp hk
    unfold getStatus at this
    cases hg : getKey fs.attachments k
    · rw [hg] at this
      simp at this
    · simp [hg]
  have happ := applyLoads_ok (notAskedKeys fs.attachments) fs.attachments hpres hld
  rw [show runOp fs Op.sweep = sweepFS fs from rfl] at h
  unfold sweepFS at h
  rw [happ] at h
  cases h
  have hnod : (notAskedKeys fs.attachments).Nodup :=
    List.Nodup.sublist (notAskedKeys_sublist fs.attachments) hnd
  refine ⟨?_, ?_, ?_, ?_⟩
  · rw [show keys (loadFold (notAskedKeys fs.attachments) fs.attachments) =
          keys fs.attachments from loadFold_keys _ _ hpres]
    exact hnd
  · exact loadFold_loading_none _ _ hld
  · intro k
    rw [List.count_append]
    by_cases hm : k ∈ notAskedKeys fs.attachments
    · have hna := (notAskedKeys_mem_iff fs.attachments k hnd).mp hm
      have hzero : fs.loads.count k = 0 := by
        by_contra hne
        have h1 : 1 ≤ fs.loads.count k := Nat.one_le_iff_ne_zero.mpr hne
        have := hs k h1
        rw [hna] at this
        cases this
      have hone : (notAskedKeys fs.attachments).count k ≤ 1 :=
        List.nodup_iff_count_le_one.mp hnod k
      omega
    · have hzero : (notAskedKeys fs.attachments).count k = 0 :=
        List.count_eq_zero_of_not_mem hm
      have := hc k
      omega
  · intro k hk
    by_cases hm : k ∈ notAskedKeys fs.attachments
    · unfold getStatus
      rw [loadFold_getKey_mem _ _ _ hm]
      rfl
    · have hnot : (notAskedKeys fs.attachments).count k = 0 :=
        List.count_eq_zero_of_not_mem hm
      rw [List.count_append, hnot] at hk
      have hst := hs k (by omega)
      unfold getStatus
      rw [loadFold_getKey_not_mem _ _ _ hm]
      exact hst

lemma runOps_invC1 (ops : List Op) (fs fs' : FullState)
    (hinv : invC1 fs) (h : runOps fs ops = Except.ok fs') : invC1 fs' := by
  induction ops generalizing fs with
  | nil =>
      rw [show runOps fs [] = Except.ok fs from rfl] at h
      cases h
      exact hinv
  | cons op t ih =>
      rw [show runOps fs (op :: t) =
            (match runOp fs op with
             | Except.error e => Except.error e
             | Except.ok fs₁ => runOps fs₁ t) from rfl] at h
      cases hop : runOp fs op with
      | error e => rw [hop] at h; cases h
      | ok fs₁ =>
          rw [hop] at h
          have hinv₁ : invC1 fs₁ := by
            cases op with
            | request id => exact invC1_request fs fs₁ id hinv hop
            | sweep => exact invC1_sweep fs fs₁ hinv hop
          exact ih fs₁ hinv₁ h

/-- C1: across any sequence of REQUEST (`PENDING`) dispatches and
begin-load passes (which issue the `BEGIN_LOAD`/`LOAD` events) driven
from the empty cache, the external loader is invoked at most once per
resource key; in particular a begin-load pass over a state whose entry
for a key is already `Loading` does not invoke the loader for that key
again. -/
theorem c1_loader_invoked_at_most_once :
    (∀ (ops : List Op) (fs : FullState) (k : String),
       runOps initFS ops = Except.ok fs → fs.loads.count k ≤ 1) ∧
    (∀ (fs fs' : FullState) (k : String),
       (keys fs.attachments).Nodup →
       getStatus fs.attachments k = some Status.Loading →
       sweepFS fs = Except.ok fs' → fs'.loads.count k = fs.loads.count k) := by
  constructor
  · intro ops fs k h
    exact (runOps_invC1 ops initFS fs invC1_init h).2.2.1 k
  · intro fs fs' k hnd hst h
    unfold sweepFS at h
    cases ha : applyLoads fs.attachments (notAskedKeys fs.attachments) with
    | error e => rw [ha] at h; cases h
    | ok att =>
        rw [ha] at h
        cases h
        have hnm : k ∉ notAskedKeys fs.attachments := by
          intro hm
          have := (notAskedKeys_mem_iff fs.attachments k hnd).mp hm
          rw [hst] at this
          cases this
        simp [List.count_append, List.count_eq_zero_of_not_mem hnm]

theorem c1_witness :
    runOps initFS [Op.request (some "p"), Op.sweep, Op.request (some "p"), Op.sweep] =
      Except.ok ⟨[("p", loadingEntry)], ["p"]⟩ ∧
    (["p"] : List String).count "p" ≤ 1 ∧
    (keys [("p", loadingEntry)]).Nodup ∧
    getStatus [("p", loadingEntry)] "p" = some Status.Loading ∧
    sweepFS ⟨[("p", loadingEntry)], ["p"]⟩ = Except.ok ⟨[("p", loadingEntry)], ["p"]⟩ ∧
    (["p"] : List String).count "p" = (["p"] : List String).count "p" :=
  ⟨rfl,
   c1_loader_invoked_at_most_once.1
     [Op.request (some "p"), Op.sweep, Op.request (some "p"), Op.sweep]
     ⟨[("p", loadingEntry)], ["p"]⟩ "p" rfl,
   by decide,
   rfl,
   rfl,
   c1_loader_invoked_at_most_once.2 ⟨[("p", loadingEntry)], ["p"]⟩
     ⟨[("p", loadingEntry)], ["p"]⟩ "p" (by decide) rfl rfl⟩

/-- C2 (counterexample): an entry whose status is `Success` does not
keep its status under every event — a `LOAD` event for its key
rewrites the entry to `{status: 'Loading', progress: undefined}`,
because the guard `state[id].loading` tests a property no entry ever
has. -/
theorem c2_counterexample :
    getStatus [("k", successEntry "v")] "k" = some Status.Success ∧
    attachmentsReducer [("k", successEntry "v")] (ReducerAction.LOAD (some "k")) =
      Except.ok [("k", loadingEntry)] ∧
    getStatus [("k", loadingEntry)] "k" = some Status.Loading ∧
    (some Status.Loading ≠ some Status.Success) :=
  ⟨rfl, rfl, rfl, by decide⟩

/-- C2 (amended): once an entry's status is `Success` or `Error`, a
`PENDING` event (for any key) and any unrecognised event leave its
status unchanged; `LOAD`, `PROGRESS`, `SUCCESS` and `ERROR` events
carrying its key can still overwrite or remove the status. -/
theorem c2_terminal_stable_under_pending (s : State) (k : String) (id : Option String)
    (hterm : getStatus s k = some Status.Success ∨ getStatus s k = some Status.Error) :
    (∃ s', attachmentsReducer s (ReducerAction.PENDING id) = Except.ok s' ∧
       getStatus s' k = getStatus s k) ∧
    attachmentsReducer s ReducerAction.OTHER = Except.ok s := by
  refine ⟨?_, rfl⟩
  by_cases hp : (getKey s (jsKey id)).isSome
  · exact ⟨s, by simp [attachmentsReducer, hp], rfl⟩
  · refine ⟨setKey s (jsKey id) notAskedEntry, by simp [attachmentsReducer, hp], ?_⟩
    have hn : getKey s (jsKey id) = none := by
      cases hg : getKey s (jsKey id)
      · rfl
      · simp [hg] at hp
    by_cases hk : k = jsKey id
    · exfalso
      rw [hk] at hterm
      rcases hterm with h | h <;> simp [getStatus, hn] at h
    · unfold getStatus
      rw [getKey_setKey_ne s (jsKey id) k notAskedEntry hk]

theorem c2_witness :
    getStatus [("k", successEntry "v")] "k" = some Status.Success ∧
    (∃ s', attachmentsReducer [("k", successEntry "v")] (ReducerAction.PENDING (some "k")) =
       Except.ok s' ∧
       getStatus s' "k" = getStatus [("k", successEntry "v")] "k") :=
  ⟨rfl,
   (c2_terminal_stable_under_pending [("k", successEntry "v")] "k" (some "k")
     (Or.inl rfl)).1⟩

/-- C3 (code evaluated at the failing input): applying a `PROGRESS`
event to an entry whose status is `Loading` does not keep the status —
the `...[action.payload.id]` spread copies a one-element array, not
the previous entry, so the resulting entry has no `status` property at
all. -/
theorem c3_progress_drops_status :
    attachmentsReducer [("k", loadingEntry)] (ReducerAction.PROGRESS (some "k") 1 2) =
      Except.ok [("k", progressEntry (some "k") 1 2)] ∧
    loadingEntry.status = some Status.Loading ∧
    (progressEntry (some "k") 1 2).status = none :=
  ⟨rfl, rfl, rfl⟩

/-- C4: for a `PROGRESS` event with `0 ≤ loaded ≤ total` and
`total > 0`, the stored percent is `floor(loaded/total) * 100`
(Nat division), which is 0 whenever `loaded < total` and equals 100
exactly when `loaded = total`. -/
theorem c4_progress_percent (s : State) (id : Option String) (loaded total : Nat)
    (h1 : loaded ≤ total) (h2 : 0 < total) :
    (∃ s', attachmentsReducer s (ReducerAction.PROGRESS id loaded total) = Except.ok s' ∧
       getKey s' (jsKey id) = some (progressEntry id loaded total)) ∧
    progressPercent loaded total = some (loaded / total * 100) ∧
    (loaded < total → progressPercent loaded total = some 0) ∧
    (progressPercent loaded total = some 100 ↔ loaded = total) := by
  have hne : total ≠ 0 := Nat.pos_iff_ne_zero.mp h2
  refine ⟨⟨setKey s (jsKey id) (progressEntry id loaded total), rfl,
      getKey_setKey_self s (jsKey id) (progressEntry id loaded total)⟩, ?_, ?_, ?_⟩
  · simp [progressPercent, hne]
  · intro hlt
    simp [progressPercent, hne, Nat.div_eq_of_lt hlt]
  · constructor
    · intro h
      simp [progressPercent, hne] at h
      have hd1 : loaded / total = 1 := by omega
      have hge : total ≤ loaded := (Nat.one_le_div_iff h2).mp (le_of_eq hd1.symm)
      exact le_antisymm h1 hge
    · intro h
      subst h
      simp [progressPercent, hne, Nat.div_self h2]

theorem c4_witness :
    progressPercent 1 2 = some 0 ∧ (progressPercent 3 3 = some 100 ↔ 3 = 3) :=
  ⟨(c4_progress_percent [] (some "k") 1 2 (by decide) (by decide)).2.2.1 (by decide),
   (c4_progress_percent [] (some "k") 3 3 (by decide) (by decide)).2.2.2⟩

/-- C5: the resolver's bit-exact directory table.  For a reference
containing a path separator, kinds character, object and environment
resolve to the user directories with the final path segment as
filename and every other kind yields null; for a bare reference,
character and object resolve to the system directories with a `.glb`
extension and every other kind (environment and light included)
yields null. -/
theorem c5_resolver_table (ty m : String) :
    (hasSlash m = true →
       (ty = "character" →
          getFilepathForLoadable ty (some m) =
            Except.ok (some ("/data/user/characters/" ++ lastSegment m))) ∧
       (ty = "object" →
          getFilepathForLoadable ty (some m) =
            Except.ok (some ("/data/user/objects/" ++ lastSegment m))) ∧
       (ty = "environment" →
          getFilepathForLoadable ty (some m) =
            Except.ok (some ("/data/user/environments/" ++ lastSegment m))) ∧
       (ty ≠ "character" → ty ≠ "object" → ty ≠ "environment" →
          getFilepathForLoadable ty (some m) = Except.ok none)) ∧
    (hasSlash m = false →
       (ty = "character" →
          getFilepathForLoadable ty (some m) =
            Except.ok (some ("/data/system/dummies/gltf/" ++ m ++ ".glb"))) ∧
       (ty = "object" →
          getFilepathForLoadable ty (some m) =
            Except.ok (some ("/data/system/objects/" ++ m ++ ".glb"))) ∧
       (ty ≠ "character" → ty ≠ "object" →
          getFilepathForLoadable ty (some m) = Except.ok none)) := by
  constructor
  · intro hs
    refine ⟨?_, ?_, ?_, ?_⟩
    · intro h; subst h; simp [getFilepathForLoadable, hs]
    · intro h; subst h; simp [getFilepathForLoadable, hs]
    · intro h; subst h; simp [getFilepathForLoadable, hs]
    · intro hc ho he; simp [getFilepathForLoadable, hs, hc, ho, he]
  · intro hs
    refine ⟨?_, ?_, ?_⟩
    · intro h; subst h; simp [getFilepathForLoadable, hs]
    · intro h; subst h; simp [getFilepathForLoadable, hs]
    · intro hc ho; simp [getFilepathForLoadable, hs, hc, ho]

theorem c5_witness :
    getFilepathForLoadable "object" (some "assets/chairs/oak.glb") =
      Except.ok (some "/data/user/objects/oak.glb") ∧
    getFilepathForLoadable "character" (some "ORC") =
      Except.ok (some "/data/system/dummies/gltf/ORC.glb") ∧
    getFilepathForLoadable "light" (some "lamp") = Except.ok none ∧
    getFilepathForLoadable "environment" (some "forest") = Except.ok none :=
  ⟨((c5_resolver_table "object" "assets/chairs/oak.glb").1 (by decide)).2.1 rfl,
   ((c5_resolver_table "character" "ORC").2 (by decide)).1 rfl,
   ((c5_resolver_table "light" "lamp").2 (by decide)).2.2 (by decide) (by decide),
   ((c5_resolver_table "environment" "forest").2 (by decide)).2.2 (by decide) (by decide)⟩

/-- C6 (counterexample): for a null `modelReference` the resolver does
not return null — `model.match(/\//)` throws a TypeError, here at kind
character. -/
theorem c6_counterexample :
    getFilepathForLoadable "character" none = Except.error JsError.typeError ∧
    Except.error JsError.typeError ≠ (Except.ok none : Except JsError (Option String)) :=
  ⟨rfl, fun h => Except.noConfusion h⟩

/-- C6 (amended): for every descriptor whose `modelReference` is null,
the resolver throws a TypeError (regardless of kind) instead of
returning; its callers never invoke it with a null reference (the
loadables filter drops model-less objects and the environment
descriptor is only built from a truthy file). -/
theorem c6_null_reference_throws (ty : String) :
    getFilepathForLoadable ty none = Except.error JsError.typeError := rfl

/-- C7: `REQUEST` is idempotent — a `PENDING` event for a key with no
entry appends an entry with status `NotAsked`, and a `PENDING` event
for a key that already has an entry returns the state unchanged. -/
theorem c7_request_idempotent (s : State) (id : Option String) :
    (getKey s (jsKey id) = none →
       attachmentsReducer s (ReducerAction.PENDING id) =
         Except.ok (setKey s (jsKey id) notAskedEntry) ∧
       getKey (setKey s (jsKey id) notAskedEntry) (jsKey id) = some notAskedEntry ∧
       notAskedEntry.status = some Status.NotAsked) ∧
    (getKey s (jsKey id) ≠ none →
       attachmentsReducer s (ReducerAction.PENDING id) = Except.ok s) := by
  constructor
  · intro h
    exact ⟨by simp [attachmentsReducer, h],
           getKey_setKey_self s (jsKey id) notAskedEntry, rfl⟩
  · intro h
    have hp : (getKey s (jsKey id)).isSome = true := by
      cases hg : getKey s (jsKey id)
      · exact absurd hg h
      · rfl
    simp [attachmentsReducer, hp]

theorem c7_witness :
    attachmentsReducer [] (ReducerAction.PENDING (some "k")) =
      Except.ok [("k", notAskedEntry)] ∧
    attachmentsReducer [("k", loadingEntry)] (ReducerAction.PENDING (some "k")) =
      Except.ok [("k", loadingEntry)] :=
  ⟨((c7_request_idempotent [] (some "k")).1 rfl).1,
   (c7_request_idempotent [("k", loadingEntry)] (some "k")).2 (by decide)⟩

/-- C8 (counterexample): the environment descriptor is pushed only
when `world.environment.file` is truthy, not merely non-null — with
the non-null but falsy file `""` the claim's set contains the
environment descriptor while the code requests nothing. -/
theorem c8_counterexample :
    claimedLoadRequest [] (some "") (Descriptor.mk "environment" (some "") none) ∧
    Descriptor.mk "environment" (some "") none ∉ loadables [] (some "") := by
  constructor
  · unfold claimedLoadRequest
    decide
  · decide

/-- C8 (amended): the requested descriptors are exactly the scene
objects with a non-null model reference, whose loaded flag is not
true, and which are not the primitive-box sentinel, plus one
environment descriptor when the environment file is non-null *and
non-empty* (truthy). -/
theorem c8_loadables_characterisation (sceneObjects : List Descriptor)
    (envFile : Option String) (d : Descriptor) :
    d ∈ loadables sceneObjects envFile ↔
      ((d ∈ sceneObjects ∧ d.model ≠ none ∧ d.loaded ≠ some true ∧
          ¬(d.type = "object" ∧ d.model = some "box")) ∨
       (envTruthy envFile = true ∧ d = Descriptor.mk "environment" envFile none)) := by
  unfold loadables
  by_cases he : envTruthy envFile
  · simp only [he, if_true, List.mem_append, List.mem_filter, List.mem_singleton,
      Option.isSome_iff_ne_none, bne_iff_ne, Bool.and_eq_true, beq_iff_eq,
      Bool.not_eq_true', Bool.and_eq_false_iff, beq_eq_false_iff_ne, ne_eq]
    tauto
  · simp only [he, if_false, List.mem_filter, Option.isSome_iff_ne_none,
      bne_iff_ne, Bool.and_eq_true, beq_iff_eq, Bool.not_eq_true',
      Bool.and_eq_false_iff, beq_eq_false_iff_ne, ne_eq, Bool.false_eq_true,
      false_and, or_false]
    tauto

theorem c8_witness :
    Descriptor.mk "character" (some "ORC") none ∈
      loadables [Descriptor.mk "character" (some "ORC") none] none :=
  (c8_loadables_characterisation [Descriptor.mk "character" (some "ORC") none] none
    (Descriptor.mk "character" (some "ORC") none)).mpr
    (Or.inl (by refine ⟨by decide, by decide, by decide, by decide⟩))

/-- C9 (code evaluated at the failing input): a descriptor that
resolves to null does cause a load — with an environment whose file is
the bare name "forest", resolution yields null, the `PENDING` dispatch
coerces the null id to the key "null", an entry is created under that
key, and the begin-load pass invokes the external loader with the key
"null". -/
theorem c9_null_resolution_still_loads :
    loadables [] (some "forest") = [Descriptor.mk "environment" (some "forest") none] ∧
    getFilepathForLoadable "environment" (some "forest") = Except.ok none ∧
    requestAll [] (loadables [] (some "forest")) = Except.ok [("null", notAskedEntry)] ∧
    sweepFS ⟨[("null", notAskedEntry)], []⟩ =
      Except.ok ⟨[("null", loadingEntry)], ["null"]⟩ :=
  ⟨rfl, rfl, rfl, rfl⟩

/-- C10: frame property of the reducer — every recognised event
changes at most the entry of the key carried in its payload, and an
unrecognised event returns the state unchanged. -/
theorem c10_frame (s : State) (a : ReducerAction) (s' : State)
    (h : attachmentsReducer s a = Except.ok s') :
    (∀ id, actionId a = some id → ∀ k, k ≠ jsKey id → getKey s' k = getKey s k) ∧
    (actionId a = none → s' = s) := by
  cases a with
  | PENDING id =>
      simp only [attachmentsReducer, Except.ok.injEq] at h
      constructor
      · intro id' hid k hk
        simp only [actionId, Option.some.injEq] at hid
        subst hid
        by_cases hp : (getKey s (jsKey id)).isSome
        · rw [if_pos hp] at h
          rw [← h]
        · rw [if_neg hp] at h
          rw [← h, getKey_setKey_ne s (jsKey id) k notAskedEntry hk]
      · intro hn
        simp [actionId] at hn
  | LOAD id =>
      simp only [attachmentsReducer] at h
      cases hg : getKey s (jsKey id) with
      | none => rw [hg] at h; cases h
      | some e =>
          rw [hg] at h
          simp only [Except.ok.injEq] at h
          constructor
          · intro id' hid k hk
            simp only [actionId, Option.some.injEq] at hid
            subst hid
            by_cases hl : e.loading.getD false
            · rw [if_pos hl] at h
              rw [← h]
            · rw [if_neg hl] at h
              rw [← h, getKey_setKey_ne s (jsKey id) k loadingEntry hk]
          · intro hn
            simp [actionId] at hn
  | PROGRESS id loaded total =>
      simp only [attachmentsReducer, Except.ok.injEq] at h
      constructor
      · intro id' hid k hk
        simp only [actionId, Option.some.injEq] at hid
        subst hid
        rw [← h, getKey_setKey_ne s (jsKey id) k (progressEntry id loaded total) hk]
      · intro hn
        simp [actionId] at hn
  | SUCCESS id value =>
      simp only [attachmentsReducer, Except.ok.injEq] at h
      constructor
      · intro id' hid k hk
        simp only [actionId, Option.some.injEq] at hid
        subst hid
        rw [← h, getKey_setKey_ne s (jsKey id) k (successEntry value) hk]
      · intro hn
        simp [actionId] at hn
  | ERROR id err =>
      simp only [attachmentsReducer, Except.ok.injEq] at h
      constructor
      · intro id' hid k hk
        simp only [actionId, Option.some.injEq] at hid
        subst hid
        rw [← h, getKey_setKey_ne s (jsKey id) k (errorEntry err) hk]
      · intro hn
        simp [actionId] at hn
  | OTHER =>
      simp only [attachmentsReducer, Except.ok.injEq] at h
      constructor
      · intro id' hid k hk
        simp [actionId] at hid
      · intro _
        exact h.symm

theorem c10_witness :
    getKey [("a", successEntry "v"), ("b", notAskedEntry)] "b" =
      getKey [("a", notAskedEntry), ("b", notAskedEntry)] "b" :=
  (c10_frame [("a", notAskedEntry), ("b", notAskedEntry)]
    (ReducerAction.SUCCESS (some "a") "v")
    [("a", successEntry "v"), ("b", notAskedEntry)] rfl).1 (some "a") rfl "b" (by decide)
